import Mathlib

/-!
Verification development for the Zetian SMTP server core, as specified by
its design document and exercised by the client test harnesses under
examples/python-tests.  The server core itself (session engine, policy
pipeline, rate limiter, message store, relay queue) ships separately, so
the definitions below are modelled from the specification text, faithful
to its wording, and the claims are settled against that model.
-/

namespace Zetian

/-! ### String helpers: address parsing and substring search -/

/-- Characters strictly after the last occurrence of the separator
character; empty when the separator never occurs. -/
def afterLastAt : List Char → List Char
  | [] => []
  | c :: rest =>
    if rest.contains '@' then afterLastAt rest
    else if c = '@' then rest
    else afterLastAt rest

/-- Characters strictly before the first occurrence of the separator
character; the whole list when the separator never occurs. -/
def beforeFirstAt : List Char → List Char
  | [] => []
  | c :: rest => if c = '@' then [] else c :: beforeFirstAt rest

/-- Modelled from the spec: the domain of a mailbox address is the part
after the last at-sign, the key for every domain-based policy decision. -/
def domainOf (a : String) : String := ⟨afterLastAt a.data⟩

/-- Modelled from the spec: the local part of a mailbox address is the
part before the first at-sign, matched by local-part allow patterns. -/
def localPartOf (a : String) : String := ⟨beforeFirstAt a.data⟩

/-- Boolean test that the first list is a prefix of the second. -/
def prefixOf : List Char → List Char → Bool
  | [], _ => true
  | _ :: _, [] => false
  | a :: as, b :: bs => a = b && prefixOf as bs

/-- Boolean test that the needle occurs as a contiguous sublist of the
haystack. -/
def containsSub (needle : List Char) : List Char → Bool
  | [] => prefixOf needle []
  | c :: rest => prefixOf needle (c :: rest) || containsSub needle rest

/-- Substring occurrence on strings, used by the content keyword filter. -/
def strContains (hay needle : String) : Bool := containsSub needle.data hay.data

/-- Lower-cased copy of a string; the keyword filter matches without
regard to case, as the harness scenarios require. -/
def lowerStr (s : String) : String := ⟨s.data.map Char.toLower⟩

/-! ### Policy rules -/

/-- Modelled from the spec: the Policy Rules snapshot — sender-domain
allow/block lists, recipient-domain allow/block lists, recipient
local-part allow patterns, and the subject/content keyword blocklist.
Read-only during a session. -/
structure PolicyRules where
  senderDomainBlock : List String
  senderDomainAllow : List String
  recipientDomainBlock : List String
  recipientDomainAllow : List String
  recipientLocalAllow : List String
  contentKeywordBlock : List String
deriving DecidableEq

/-- Modelled from the spec: sender-domain policy, evaluated in the fixed
order (1) explicit block list — any match rejects immediately, (2)
explicit allow list, if non-empty — no match rejects, (3) default allow. -/
def senderPolicy (rules : PolicyRules) (d : String) : Bool :=
  if d ∈ rules.senderDomainBlock then false
  else if rules.senderDomainAllow ≠ [] ∧ d ∉ rules.senderDomainAllow then false
  else true

/-- Modelled from the spec: recipient policy — domain block/allow lists
with the same precedence as sender checks, then the local-part allow
pattern set when that policy is configured (non-empty). -/
def recipientPolicy (rules : PolicyRules) (addr : String) : Bool :=
  if domainOf addr ∈ rules.recipientDomainBlock then false
  else if rules.recipientDomainAllow ≠ [] ∧ domainOf addr ∉ rules.recipientDomainAllow then false
  else if rules.recipientLocalAllow ≠ [] ∧ localPartOf addr ∉ rules.recipientLocalAllow then false
  else true

/-- Modelled from the spec: the event-based content filter — a message is
blocked when its subject or body contains a configured blocked keyword. -/
def contentBlocked (rules : PolicyRules) (subject body : String) : Bool :=
  rules.contentKeywordBlock.any (fun k =>
    strContains (lowerStr subject) (lowerStr k) || strContains (lowerStr body) (lowerStr k))

/-! ### Rate limiter -/

/-- Modelled from the spec: a RateWindow — a window start time and a
count for one counter key. -/
structure RateWindow where
  windowStart : Nat
  count : Nat
deriving DecidableEq

/-- Modelled from the spec: the Rate Limiter — fixed windows per key with
a configured per-window threshold and a window length in wall-clock
time units. -/
structure RateLimiter where
  threshold : Nat
  windowLen : Nat
  windows : List (String × RateWindow)
deriving DecidableEq

/-- Window currently recorded for a key, if any. -/
def findWindow (k : String) : List (String × RateWindow) → Option RateWindow
  | [] => none
  | (k₂, w) :: rest => if k₂ = k then some w else findWindow k rest

/-- Record a window for a key, replacing any previous one. -/
def setWindow (k : String) (w : RateWindow) : List (String × RateWindow) → List (String × RateWindow)
  | [] => [(k, w)]
  | (k₂, w₂) :: rest => if k₂ = k then (k, w) :: rest else (k₂, w₂) :: setWindow k w rest

/-- Modelled from the spec: the effective window for a key at time `now`.
Windows roll over on elapsed wall-clock time; a stale window is lazily
reset to a fresh count of zero the first time it is touched after
expiry, and an absent key starts a fresh window. -/
def currentWindow (now : Nat) (k : String) (rl : RateLimiter) : RateWindow :=
  match findWindow k rl.windows with
  | none => ⟨now, 0⟩
  | some w => if w.windowStart + rl.windowLen ≤ now then ⟨now, 0⟩ else w

/-- Modelled from the spec: tryAcquire(key) increments the counter for
the current window if and only if the result would not exceed the
configured threshold; otherwise it returns refusal without mutating
state. -/
def tryAcquire (now : Nat) (k : String) (rl : RateLimiter) : Bool × RateLimiter :=
  let w := currentWindow now k rl
  if w.count + 1 ≤ rl.threshold then
    (true, { rl with windows := setWindow k ⟨w.windowStart, w.count + 1⟩ rl.windows })
  else (false, rl)

/-! ### Session engine data model -/

/-- Modelled from the spec: the protocol states of one session. The
Authenticated condition is an orthogonal flag on the session, not a
separate protocol state. -/
inductive SessionState
  | Connected
  | Greeted
  | MailFromSet
  | RcptToSet
  | ReceivingData
  | Closed
deriving DecidableEq

/-- Modelled from the spec: semantic reply signals emitted by the
session engine; each belongs to a reply code family. -/
inductive Reply
  | okReply
  | startData
  | rejectedPolicy
  | rejectedContent
  | rateLimited
  | authFailure
  | encryptionRequired
  | authRequired
  | badSequence
deriving DecidableEq

/-- Reply code families: success (2xx), intermediate (3xx), temporary
failure (4xx), permanent failure (5xx). -/
inductive ReplyClass
  | success
  | intermediate
  | tempFailure
  | permFailure
deriving DecidableEq

/-- Modelled from the spec: the family each reply signal belongs to;
rate limiting is a temporary failure, policy, content, authentication
and sequence errors are permanent failures. -/
def replyClass : Reply → ReplyClass
  | .okReply => .success
  | .startData => .intermediate
  | .rateLimited => .tempFailure
  | .rejectedPolicy => .permFailure
  | .rejectedContent => .permFailure
  | .authFailure => .permFailure
  | .encryptionRequired => .permFailure
  | .authRequired => .permFailure
  | .badSequence => .permFailure

/-- Modelled from the spec: per-connection session record — remote
address, negotiated TLS state, optional authenticated identity, current
protocol state, and the in-progress transaction (sender and ordered
recipient list). -/
structure Session where
  remoteAddr : String
  tlsActive : Bool
  authIdentity : Option String
  state : SessionState
  txSender : Option String
  txRecipients : List String
deriving DecidableEq

/-- Modelled from the spec: server configuration snapshot consumed by the
session engine — policy rules, credential store contents, whether
authentication requires a prior TLS upgrade, whether sending requires
authentication, and the set of local domains. -/
structure ServerConfig where
  rules : PolicyRules
  credentials : List (String × String)
  requireTlsForAuth : Bool
  requireAuth : Bool
  localDomains : List String
deriving DecidableEq

/-- Stored secret for an identity in the Credential Store, if registered. -/
def lookupSecret (creds : List (String × String)) (id : String) : Option String :=
  match creds with
  | [] => none
  | (i, s) :: rest => if i = id then some s else lookupSecret rest id

/-- Modelled from the spec: a recipient is local when its domain is one
the server delivers to its own Message Store rather than relaying. -/
def isLocal (cfg : ServerConfig) (addr : String) : Bool :=
  decide (domainOf addr ∈ cfg.localDomains)

/-! ### Message store and relay queue -/

/-- Modelled from the spec: an accepted message — sender, recipient list,
header block and raw body. Immutable once accepted. -/
structure StoredMessage where
  sender : String
  recipients : List String
  headerBlock : String
  body : String
deriving DecidableEq

/-- Modelled from the spec: the Message Store, durable persistence of
accepted local messages. The date-derived storage path is abstracted to
a sequential receipt identifier. -/
structure MessageStore where
  messages : List StoredMessage
deriving DecidableEq

/-- Modelled from the spec: persist(message) writes the message durably
and returns a receipt identifying it; it never mutates an already
persisted message. -/
def persist (st : MessageStore) (m : StoredMessage) : Nat × MessageStore :=
  (st.messages.length, ⟨st.messages ++ [m]⟩)

/-- Modelled from the spec: retrieval of a persisted message through the
receipt returned by persist. -/
def retrieve (st : MessageStore) (r : Nat) : Option StoredMessage :=
  st.messages[r]?

/-- Modelled from the spec: lifecycle states of a relay queue entry. -/
inductive RelayStatus
  | Pending
  | InFlight
  | Delivered
  | Failed
deriving DecidableEq

/-- Modelled from the spec: a RelayQueueEntry — message reference,
destination domain, lifecycle status and attempt count; created Pending
when a transaction commits with a non-local recipient. -/
structure RelayQueueEntry where
  message : StoredMessage
  destDomain : String
  status : RelayStatus
  attempts : Nat
deriving DecidableEq

/-! ### Session engine command handlers -/

/-- Modelled from the spec: the greeting transition Connected to Greeted. -/
def handleGreet (s : Session) : Reply × Session :=
  if s.state = .Connected then (.okReply, { s with state := .Greeted })
  else (.badSequence, s)

/-- Modelled from the spec: authentication. When policy requires
encryption before authentication and the channel is not encrypted, the
attempt is refused with an encryption-required signal without
consulting the Credential Store; otherwise the supplied identity and
secret are checked against the store, failure leaves the session in
Greeted, success records the authenticated identity. -/
def handleAuth (cfg : ServerConfig) (s : Session) (id sec : String) : Reply × Session :=
  if s.state ≠ .Greeted then (.badSequence, s)
  else if cfg.requireTlsForAuth ∧ ¬s.tlsActive then (.encryptionRequired, s)
  else
    match lookupSecret cfg.credentials id with
    | none => (.authFailure, s)
    | some stored =>
      if stored = sec then (.okReply, { s with authIdentity := some id })
      else (.authFailure, s)

/-- Modelled from the spec: the STARTTLS upgrade — permitted only when
the session has not already upgraded and no transaction is in progress;
it replaces the transport with an encrypted one and resets advertised
extension state, so the peer must re-greet (state returns to
Connected). -/
def handleStartTls (s : Session) : Reply × Session :=
  if s.state = .Greeted ∧ ¬s.tlsActive ∧ s.txSender = none then
    (.okReply, { s with tlsActive := true, state := .Connected })
  else (.badSequence, s)

/-- Session after a sender address has been accepted: the transaction
starts fresh with that sender and no recipients. -/
def mailStarted (s : Session) (addr : String) : Session :=
  { s with
    state := .MailFromSet
    txSender := some addr
    txRecipients := [] }

/-- Session while the message body is being buffered. -/
def receivingOf (s : Session) : Session := { s with state := .ReceivingData }

/-- Session after commit or abort of the transaction: back to Greeted
with the transaction fields cleared, TLS and authentication state
persisting. -/
def clearedOf (s : Session) : Session :=
  { s with
    state := .Greeted
    txSender := none
    txRecipients := [] }

/-- Result of the MAIL FROM step: reply, updated session, and the two
rate limiter states (global and per-source-IP). -/
structure MailResult where
  reply : Reply
  session : Session
  grl : RateLimiter
  irl : RateLimiter
deriving DecidableEq

/-- Modelled from the spec: the MAIL FROM step. Rejects when prior
authentication is required and absent; applies the sender-domain policy
in its fixed order; then applies the rate limiter check (global window
and per-source-IP window) — a window at capacity rejects with a
rate-limited temporary failure and does not advance state. -/
def handleMailFrom (cfg : ServerConfig) (now : Nat) (grl irl : RateLimiter)
    (s : Session) (addr : String) : MailResult :=
  if s.state ≠ .Greeted then ⟨.badSequence, s, grl, irl⟩
  else if cfg.requireAuth ∧ s.authIdentity = none then ⟨.authRequired, s, grl, irl⟩
  else if senderPolicy cfg.rules (domainOf addr) then
    if (tryAcquire now "global" grl).1 && (tryAcquire now s.remoteAddr irl).1 then
      ⟨.okReply, mailStarted s addr,
        (tryAcquire now "global" grl).2, (tryAcquire now s.remoteAddr irl).2⟩
    else ⟨.rateLimited, s, grl, irl⟩
  else ⟨.rejectedPolicy, s, grl, irl⟩

/-- Modelled from the spec: the RCPT TO step — each recipient is checked
against the recipient policy; an accepted recipient is appended to the
transaction (duplicates permitted, ordering preserved); a rejected
recipient does not abort the transaction, it is simply not added and
the reply reflects the rejection for that recipient only. -/
def handleRcpt (cfg : ServerConfig) (s : Session) (addr : String) : Reply × Session :=
  if s.state = .MailFromSet ∨ s.state = .RcptToSet then
    if recipientPolicy cfg.rules addr then
      (.okReply, { s with state := .RcptToSet, txRecipients := s.txRecipients ++ [addr] })
    else (.rejectedPolicy, s)
  else (.badSequence, s)

/-- Modelled from the spec: the DATA command begins body transfer only
from RcptToSet, the state reached once at least one recipient has been
accepted; with zero accepted recipients the transaction cannot proceed. -/
def handleDataBegin (s : Session) : Reply × Session :=
  if s.state = .RcptToSet then (.startData, receivingOf s)
  else (.badSequence, s)

/-- Message content as received at end of DATA: header block, subject
and raw body. -/
structure MailContent where
  headerBlock : String
  subject : String
  body : String
deriving DecidableEq

/-- Distinct destination domains of the non-local recipients, in order of
first appearance. -/
def nonlocalDomains (cfg : ServerConfig) (rs : List String) : List String :=
  ((rs.filter (fun r => !isLocal cfg r)).map domainOf).dedup

/-- The immutable message created at successful end of a DATA
transaction: the transaction sender, the accepted recipients, and the
received header block and raw body. -/
def committedMessage (s : Session) (mc : MailContent) : StoredMessage :=
  { sender := s.txSender.getD "", recipients := s.txRecipients,
    headerBlock := mc.headerBlock, body := mc.body }

/-- Fresh Pending relay queue entry for one destination domain. -/
def relayEntry (m : StoredMessage) (d : String) : RelayQueueEntry :=
  { message := m, destDomain := d, status := .Pending, attempts := 0 }

/-- Result of end of DATA: reply, updated session, message store and
relay queue. -/
structure CommitResult where
  reply : Reply
  session : Session
  store : MessageStore
  queue : List RelayQueueEntry
deriving DecidableEq

/-- Modelled from the spec: end of DATA. The complete message is first
evaluated by the content filter; a content rejection discards the
message entirely — neither stored nor queued — and returns to Greeted.
On acceptance every recipient is classified local or non-local by
domain: a local recipient routes the message to the Message Store (one
stored copy), and each distinct non-local destination domain produces
one Pending relay queue entry. The transaction is cleared either way. -/
def handleDataEnd (cfg : ServerConfig) (s : Session) (mc : MailContent)
    (st : MessageStore) (q : List RelayQueueEntry) : CommitResult :=
  if s.state ≠ .ReceivingData then ⟨.badSequence, s, st, q⟩
  else if contentBlocked cfg.rules mc.subject mc.body then
    ⟨.rejectedContent, clearedOf s, st, q⟩
  else
    let msg := committedMessage s mc
    let st₂ := if s.txRecipients.any (fun r => isLocal cfg r) then (persist st msg).2 else st
    let q₂ := q ++ (nonlocalDomains cfg s.txRecipients).map (relayEntry msg)
    ⟨.okReply, clearedOf s, st₂, q₂⟩

/-! ### Whole-transaction runner -/

/-- Run a sequence of RCPT commands in order, collecting the per-command
replies. -/
def runRcpts (cfg : ServerConfig) (s : Session) : List String → List Reply × Session
  | [] => ([], s)
  | r :: rs =>
    let step := handleRcpt cfg s r
    let rest := runRcpts cfg step.2 rs
    (step.1 :: rest.1, rest.2)

/-- Observable outcome of one full transaction attempt: the reply of
every protocol step and the final session, store and queue. -/
structure TxnResult where
  mailReply : Reply
  rcptReplies : List Reply
  dataBeginReply : Reply
  dataEndReply : Reply
  finalSession : Session
  finalStore : MessageStore
  finalQueue : List RelayQueueEntry
deriving DecidableEq

/-- Modelled from the spec: a full transaction attempt as the session
engine drives it — MAIL FROM, then each RCPT TO in order, then DATA and
its end-of-data commit; each handler gates on the current state, so a
step refused earlier surfaces as a sequence error later. -/
def runTransaction (cfg : ServerConfig) (now : Nat) (grl irl : RateLimiter)
    (s : Session) (sender : String) (rcpts : List String) (mc : MailContent)
    (st : MessageStore) (q : List RelayQueueEntry) : TxnResult :=
  let m := handleMailFrom cfg now grl irl s sender
  let r := runRcpts cfg m.session rcpts
  let d := handleDataBegin r.2
  let e := handleDataEnd cfg d.2 mc st q
  ⟨m.reply, r.1, d.1, e.reply, e.session, e.store, e.queue⟩

/-! ### Concrete fixtures, taken from the configurations the test
harnesses document -/

/-- Policy rules of the protocol-level filtering harness: blocked sender
domains spam.com and junk.org, allowed recipient domains, and the
content keyword blocklist of the custom-processing harness. -/
def tcRules : PolicyRules :=
  { senderDomainBlock := ["spam.com", "junk.org"]
    senderDomainAllow := []
    recipientDomainBlock := []
    recipientDomainAllow := ["mydomain.com", "example.com", "localhost"]
    recipientLocalAllow := []
    contentKeywordBlock := ["viagra", "casino", "lottery"] }

/-- Server configuration fixture matching the plaintext port harnesses. -/
def tcCfg : ServerConfig :=
  { rules := tcRules
    credentials := [("admin", "password123")]
    requireTlsForAuth := false
    requireAuth := false
    localDomains := ["localhost", "relay.local"] }

/-- Fresh session fixture in the Greeted state. -/
def sess0 : Session :=
  { remoteAddr := "127.0.0.1", tlsActive := false, authIdentity := none,
    state := .Greeted, txSender := none, txRecipients := [] }

/-- Rate limiter fixture: five messages per sixty-unit window, no window
yet recorded. -/
def rl0 : RateLimiter := { threshold := 5, windowLen := 60, windows := [] }

/-- Rate limiter fixture whose per-IP window for the loopback source is
already at capacity. -/
def rlFull : RateLimiter :=
  { threshold := 5, windowLen := 60, windows := [("127.0.0.1", ⟨0, 5⟩)] }

/-- Session fixture mid-transaction: the sender has been accepted, no
recipient yet. -/
def sessMail : Session :=
  { sess0 with state := .MailFromSet, txSender := some "sender@trusted.com" }

/-- Server configuration fixture of the secure-port harness: encryption
is required before authentication. -/
def tlsCfg : ServerConfig :=
  { tcCfg with
    requireTlsForAuth := true
    credentials := [("secure@example.com", "securepass")] }

/-- Session fixture at end of body transfer with one local and one
non-local recipient, matching the relay harness scenarios. -/
def sessData : Session :=
  { sess0 with
    state := .ReceivingData
    txSender := some "sender@python.local"
    txRecipients := ["local@localhost", "external@gmail.com"] }

/-- Benign message content fixture. -/
def mcClean : MailContent :=
  { headerBlock := "Subject: Normal Message", subject := "Normal Message",
    body := "This is a normal business email." }

example : domainOf "user@mydomain.com" = "mydomain.com" := by decide
example : localPartOf "admin@example.com" = "admin" := by decide
example : strContains "Buy Viagra Now" "Viagra" = true := by decide
example : strContains "Normal Message" "viagra" = false := by decide
example : contentBlocked tcRules "Buy Viagra Now!" "Check out our products" = true := by decide
example : contentBlocked tcRules "Normal Message" "Free Money" = false := by decide

/-! ### Claim theorems -/

/-- Limiter state after a successful acquisition: the current window of
the key with its count incremented, recorded under the key. -/
def incremented (now : Nat) (k : String) (rl : RateLimiter) : RateLimiter :=
  let w := currentWindow now k rl
  { rl with windows := setWindow k ⟨w.windowStart, w.count + 1⟩ rl.windows }

/-- C8: every call of tryAcquire(key) increments the counter of the
current window if and only if the incremented count would not exceed
the configured threshold; when it would exceed it, tryAcquire returns
refusal and leaves the window state (count and window start)
unchanged. -/
theorem tryAcquire_atomic_spec (now : Nat) (k : String) (rl : RateLimiter) :
    ((currentWindow now k rl).count + 1 ≤ rl.threshold →
      tryAcquire now k rl = (true, incremented now k rl)) ∧
    (rl.threshold < (currentWindow now k rl).count + 1 →
      tryAcquire now k rl = (false, rl)) ∧
    ((tryAcquire now k rl).1 = true ↔ (currentWindow now k rl).count + 1 ≤ rl.threshold) := by
  refine ⟨fun h => ?_, fun h => ?_, ?_⟩
  · simp [tryAcquire, incremented, h]
  · simp [tryAcquire, Nat.not_le.mpr h]
  · constructor
    · intro h
      by_contra hn
      simp [tryAcquire, hn] at h
    · intro h
      simp [tryAcquire, h]

/-- Witness for C8 at a concrete limiter: the sixth acquisition in a full
window is refused and leaves the limiter unchanged. -/
theorem tryAcquire_atomic_spec_witness :
    tryAcquire 30 "127.0.0.1" rlFull = (false, rlFull) :=
  (tryAcquire_atomic_spec 30 "127.0.0.1" rlFull).2.1 (by decide)

/-- C9: a message persisted by the Message Store is retrieved
bit-identical via the receipt returned by persist, and persisting a
further message never mutates an already-persisted one. -/
theorem persist_roundtrip (st : MessageStore) (m m₂ : StoredMessage) :
    retrieve (persist st m).2 (persist st m).1 = some m ∧
    (∀ r, r < st.messages.length → retrieve (persist st m₂).2 r = retrieve st r) := by
  constructor
  · simp [persist, retrieve, List.getElem?_concat_length]
  · intro r hr
    simp only [persist, retrieve]
    exact List.getElem?_append_left hr

/-- Witness for C9 at a concrete store: the round trip returns the exact
message and an earlier message is untouched by a later persist. -/
theorem persist_roundtrip_witness :
    retrieve (persist ⟨[⟨"a@x", ["b@y"], "H", "B"⟩]⟩ ⟨"c@z", ["d@w"], "H2", "B2"⟩).2
      (persist ⟨[⟨"a@x", ["b@y"], "H", "B"⟩]⟩ ⟨"c@z", ["d@w"], "H2", "B2"⟩).1 =
      some ⟨"c@z", ["d@w"], "H2", "B2"⟩ ∧
    retrieve (persist ⟨[⟨"a@x", ["b@y"], "H", "B"⟩]⟩ ⟨"c@z", ["d@w"], "H2", "B2"⟩).2 0 =
      retrieve ⟨[⟨"a@x", ["b@y"], "H", "B"⟩]⟩ 0 :=
  ⟨(persist_roundtrip ⟨[⟨"a@x", ["b@y"], "H", "B"⟩]⟩ ⟨"c@z", ["d@w"], "H2", "B2"⟩
      ⟨"c@z", ["d@w"], "H2", "B2"⟩).1,
   (persist_roundtrip ⟨[⟨"a@x", ["b@y"], "H", "B"⟩]⟩ ⟨"c@z", ["d@w"], "H2", "B2"⟩
      ⟨"c@z", ["d@w"], "H2", "B2"⟩).2 0 (by decide)⟩

/-- C4: with the per-window cap already reached on a key inside the
current window, the next tryAcquire on that key is refused and mutates
nothing; through the MAIL FROM step that refusal surfaces as the
rate-limited temporary-failure (4xx) signal with the session state not
advanced; and once the wall-clock window has elapsed, a subsequent
attempt on the same key succeeds, the stale window having been lazily
reset to a count of zero (so the new count is one). -/
theorem rate_window_cap_and_reset
    (rl : RateLimiter) (k : String) (now now₂ : Nat) (w : RateWindow)
    (hfind : findWindow k rl.windows = some w)
    (hcur : now < w.windowStart + rl.windowLen)
    (hcap : w.count = rl.threshold)
    (hthr : 1 ≤ rl.threshold)
    (hexp : w.windowStart + rl.windowLen ≤ now₂) :
    tryAcquire now k rl = (false, rl) ∧
    (∀ (cfg : ServerConfig) (grl : RateLimiter) (s : Session) (addr : String),
      s.state = .Greeted →
      ¬(cfg.requireAuth ∧ s.authIdentity = none) →
      senderPolicy cfg.rules (domainOf addr) = true →
      s.remoteAddr = k →
      (handleMailFrom cfg now grl rl s addr).reply = .rateLimited ∧
      (handleMailFrom cfg now grl rl s addr).session = s) ∧
    replyClass .rateLimited = .tempFailure ∧
    tryAcquire now₂ k rl = (true, { rl with windows := setWindow k ⟨now₂, 1⟩ rl.windows }) := by
  have hcw : currentWindow now k rl = w := by
    simp [currentWindow, hfind, Nat.not_le.mpr hcur]
  have hrefuse : tryAcquire now k rl = (false, rl) := by
    simp [tryAcquire, hcw, hcap]
  refine ⟨hrefuse, ?_, rfl, ?_⟩
  · intro cfg grl s addr hst hauth hsp hk
    have hs1 : ¬(s.state ≠ SessionState.Greeted) := by simp [hst]
    have hip : (tryAcquire now s.remoteAddr rl).1 = false := by
      rw [hk, hrefuse]
    simp [handleMailFrom, hs1, hauth, hsp, hip]
  · have hcw₂ : currentWindow now₂ k rl = ⟨now₂, 0⟩ := by
      simp [currentWindow, hfind, hexp]
    simp [tryAcquire, hcw₂, hthr]

/-- Witness for C4 at the loopback key: the sixth attempt at time 30 in a
full five-slot window is refused and the MAIL FROM step reports the
rate-limited signal without advancing the session, while an attempt at
time 61 succeeds on the lazily reset window. -/
theorem rate_window_cap_and_reset_witness :
    tryAcquire 30 "127.0.0.1" rlFull = (false, rlFull) ∧
    (handleMailFrom tcCfg 30 rl0 rlFull sess0 "sender@trusted.com").reply = .rateLimited ∧
    (handleMailFrom tcCfg 30 rl0 rlFull sess0 "sender@trusted.com").session = sess0 ∧
    tryAcquire 61 "127.0.0.1" rlFull =
      (true, { rlFull with windows := setWindow "127.0.0.1" ⟨61, 1⟩ rlFull.windows }) := by
  have h := rate_window_cap_and_reset rlFull "127.0.0.1" 30 61 ⟨0, 5⟩
    (by decide) (by decide) (by decide) (by decide) (by decide)
  have hm := h.2.1 tcCfg rl0 sess0 "sender@trusted.com"
    (by decide) (by decide) (by decide) (by decide)
  exact ⟨h.1, hm.1, hm.2, h.2.2.2⟩

/-- C10: the rate-limit treatment of the MAIL FROM step depends only on
the source key and the window state, never on the sender address — for
any two sender addresses that pass sender policy, the step produces the
same reply, the same global and per-IP limiter states, and the same
resulting protocol state, so varying only the sender address never
resets or bypasses the per-IP window. -/
theorem rate_decision_sender_independent (cfg : ServerConfig) (now : Nat)
    (grl irl : RateLimiter) (s : Session) (a₁ a₂ : String)
    (h₁ : senderPolicy cfg.rules (domainOf a₁) = true)
    (h₂ : senderPolicy cfg.rules (domainOf a₂) = true) :
    (handleMailFrom cfg now grl irl s a₁).reply = (handleMailFrom cfg now grl irl s a₂).reply ∧
    (handleMailFrom cfg now grl irl s a₁).grl = (handleMailFrom cfg now grl irl s a₂).grl ∧
    (handleMailFrom cfg now grl irl s a₁).irl = (handleMailFrom cfg now grl irl s a₂).irl ∧
    (handleMailFrom cfg now grl irl s a₁).session.state =
      (handleMailFrom cfg now grl irl s a₂).session.state := by
  by_cases hstate : s.state = SessionState.Greeted
  · by_cases hauth : cfg.requireAuth = true ∧ s.authIdentity = none
    · simp [handleMailFrom, hstate, hauth]
    · by_cases hrate :
        ((tryAcquire now "global" grl).1 && (tryAcquire now s.remoteAddr irl).1) = true
      · simp [handleMailFrom, hstate, hauth, h₁, h₂, hrate, mailStarted]
      · simp [handleMailFrom, hstate, hauth, h₁, h₂, hrate, mailStarted]
  · simp [handleMailFrom, hstate]

/-- Witness for C10: two attempts from the loopback source with distinct
policy-acceptable sender addresses receive identical rate-limit
treatment. -/
theorem rate_decision_sender_independent_witness :
    (handleMailFrom tcCfg 30 rl0 rlFull sess0 "user0@example.com").reply =
      (handleMailFrom tcCfg 30 rl0 rlFull sess0 "user1@example.com").reply ∧
    (handleMailFrom tcCfg 30 rl0 rlFull sess0 "user0@example.com").irl =
      (handleMailFrom tcCfg 30 rl0 rlFull sess0 "user1@example.com").irl :=
  ⟨(rate_decision_sender_independent tcCfg 30 rl0 rlFull sess0
      "user0@example.com" "user1@example.com" (by decide) (by decide)).1,
   (rate_decision_sender_independent tcCfg 30 rl0 rlFull sess0
      "user0@example.com" "user1@example.com" (by decide) (by decide)).2.2.1⟩

/-- C1: the MAIL FROM step applies sender-domain policy in the fixed
order block list first, then non-empty allow list, then default allow —
a blocked domain is rejected at the sender step with the session not
advanced, a domain missing from a non-empty allow list is rejected, and
a domain on neither list is accepted when the allow list does not apply
(given the rate windows admit the attempt). -/
theorem sender_policy_fixed_order (cfg : ServerConfig) (now : Nat)
    (grl irl : RateLimiter) (s : Session) (addr : String)
    (hst : s.state = .Greeted)
    (hauth : ¬(cfg.requireAuth = true ∧ s.authIdentity = none)) :
    (domainOf addr ∈ cfg.rules.senderDomainBlock →
      (handleMailFrom cfg now grl irl s addr).reply = .rejectedPolicy ∧
      (handleMailFrom cfg now grl irl s addr).session = s) ∧
    (domainOf addr ∉ cfg.rules.senderDomainBlock →
      cfg.rules.senderDomainAllow ≠ [] →
      domainOf addr ∉ cfg.rules.senderDomainAllow →
      (handleMailFrom cfg now grl irl s addr).reply = .rejectedPolicy ∧
      (handleMailFrom cfg now grl irl s addr).session = s) ∧
    (domainOf addr ∉ cfg.rules.senderDomainBlock →
      (cfg.rules.senderDomainAllow = [] ∨ domainOf addr ∈ cfg.rules.senderDomainAllow) →
      (tryAcquire now "global" grl).1 = true →
      (tryAcquire now s.remoteAddr irl).1 = true →
      (handleMailFrom cfg now grl irl s addr).reply = .okReply ∧
      (handleMailFrom cfg now grl irl s addr).session.state = .MailFromSet ∧
      (handleMailFrom cfg now grl irl s addr).session.txSender = some addr) := by
  refine ⟨fun hb => ?_, fun hb hne hna => ?_, fun hb hal hg hi => ?_⟩
  · have hp : senderPolicy cfg.rules (domainOf addr) = false := by
      simp [senderPolicy, hb]
    simp [handleMailFrom, hst, hauth, hp]
  · have hp : senderPolicy cfg.rules (domainOf addr) = false := by
      simp [senderPolicy, hb, hne, hna]
    simp [handleMailFrom, hst, hauth, hp]
  · have hp : senderPolicy cfg.rules (domainOf addr) = true := by
      rcases hal with h | h <;> simp [senderPolicy, hb, h]
    simp [handleMailFrom, hst, hauth, hp, hg, hi, mailStarted]

/-- Witness for C1 on the protocol-level filtering configuration: the
blocked domain spam.com is rejected at the sender step without
advancing the session, and the unlisted domain other.com is accepted
under the default policy. -/
theorem sender_policy_fixed_order_witness :
    (handleMailFrom tcCfg 0 rl0 rl0 sess0 "spammer@spam.com").reply = .rejectedPolicy ∧
    (handleMailFrom tcCfg 0 rl0 rl0 sess0 "spammer@spam.com").session = sess0 ∧
    (handleMailFrom tcCfg 0 rl0 rl0 sess0 "user@other.com").reply = .okReply ∧
    (handleMailFrom tcCfg 0 rl0 rl0 sess0 "user@other.com").session.state = .MailFromSet := by
  have h1 := (sender_policy_fixed_order tcCfg 0 rl0 rl0 sess0 "spammer@spam.com"
    (by decide) (by decide)).1 (by decide)
  have h2 := (sender_policy_fixed_order tcCfg 0 rl0 rl0 sess0 "user@other.com"
    (by decide) (by decide)).2.2 (by decide) (Or.inl (by decide)) (by decide) (by decide)
  exact ⟨h1.1, h1.2, h2.1, h2.2.1⟩

/-- C5: a RCPT command whose recipient the recipient policy rejects
affects only that recipient — the reply signals the rejection, the
session (recipient set, sender, protocol state) is unchanged, so the
transaction is not aborted and a previously accepted sender stays
accepted; and from MailFromSet, where no recipient has ever been
accepted, the DATA command is refused so the transaction cannot proceed
to data transfer. -/
theorem rcpt_rejection_isolated (cfg : ServerConfig) (s : Session) (addr : String)
    (hst : s.state = .MailFromSet ∨ s.state = .RcptToSet)
    (hrej : recipientPolicy cfg.rules addr = false) :
    (handleRcpt cfg s addr).1 = .rejectedPolicy ∧
    (handleRcpt cfg s addr).2 = s ∧
    (∀ t : Session, t.state = .MailFromSet →
      (handleDataBegin t).1 = .badSequence ∧ (handleDataBegin t).2 = t) := by
  have h1 : handleRcpt cfg s addr = (.rejectedPolicy, s) := by
    unfold handleRcpt
    rw [if_pos hst]
    simp [hrej]
  refine ⟨by rw [h1], by rw [h1], fun t ht => ?_⟩
  have hn : ¬(t.state = SessionState.RcptToSet) := by simp [ht]
  unfold handleDataBegin
  rw [if_neg hn]
  exact ⟨rfl, rfl⟩

/-- Witness for C5 on the protocol-level filtering configuration: the
recipient someone@external.com, whose domain misses the non-empty
recipient allow list, is rejected while the session — including the
accepted sender — is untouched, and DATA is refused with no accepted
recipient. -/
theorem rcpt_rejection_isolated_witness :
    (handleRcpt tcCfg sessMail "someone@external.com").1 = .rejectedPolicy ∧
    (handleRcpt tcCfg sessMail "someone@external.com").2 = sessMail ∧
    (handleDataBegin sessMail).1 = .badSequence := by
  have h := rcpt_rejection_isolated tcCfg sessMail "someone@external.com"
    (Or.inl (by decide)) (by decide)
  exact ⟨h.1, h.2.1, (h.2.2 sessMail (by decide)).1⟩

/-- C6: with encryption requirements satisfied and rate limiting absent,
an authentication attempt fails with the authentication-failure signal
and leaves the session unchanged in Greeted when the identity is
unregistered or the supplied secret mismatches the stored one, and
succeeds — recording the identity — when the pair matches a registered
credential. -/
theorem auth_credential_check (cfg : ServerConfig) (s : Session) (id sec : String)
    (hst : s.state = .Greeted)
    (henc : ¬(cfg.requireTlsForAuth = true ∧ s.tlsActive = false)) :
    (lookupSecret cfg.credentials id = none →
      (handleAuth cfg s id sec).1 = .authFailure ∧
      (handleAuth cfg s id sec).2 = s ∧ (handleAuth cfg s id sec).2.state = .Greeted) ∧
    (∀ stored, lookupSecret cfg.credentials id = some stored → stored ≠ sec →
      (handleAuth cfg s id sec).1 = .authFailure ∧
      (handleAuth cfg s id sec).2 = s ∧ (handleAuth cfg s id sec).2.state = .Greeted) ∧
    (lookupSecret cfg.credentials id = some sec →
      (handleAuth cfg s id sec).1 = .okReply ∧
      (handleAuth cfg s id sec).2.authIdentity = some id) := by
  refine ⟨fun hl => ?_, fun stored hl hne => ?_, fun hl => ?_⟩
  · simp [handleAuth, hst, henc, hl]
  · simp [handleAuth, hst, henc, hl, hne]
  · simp [handleAuth, hst, henc, hl]

/-- Witness for C6 on the authenticated-port configuration: the wrong
pair is refused with the session intact and the registered pair admin
with password123 is accepted. -/
theorem auth_credential_check_witness :
    (handleAuth tcCfg sess0 "hacker@evil.com" "wrongpass").1 = .authFailure ∧
    (handleAuth tcCfg sess0 "hacker@evil.com" "wrongpass").2 = sess0 ∧
    (handleAuth tcCfg sess0 "admin" "password123").1 = .okReply ∧
    (handleAuth tcCfg sess0 "admin" "password123").2.authIdentity = some "admin" := by
  have h1 := (auth_credential_check tcCfg sess0 "hacker@evil.com" "wrongpass"
    (by decide) (by decide)).1 (by decide)
  have h2 := (auth_credential_check tcCfg sess0 "admin" "password123"
    (by decide) (by decide)).2.2 (by decide)
  exact ⟨h1.1, h1.2.1, h2.1, h2.2⟩

/-- C7: when policy requires encryption before authentication, an
authentication attempt on an unupgraded channel is refused with the
encryption-required signal and the session is unchanged; the outcome is
the same for every content of the Credential Store — the store is not
consulted, so even correct credentials are refused; and once the
STARTTLS upgrade has completed (and the peer has re-greeted, as the
upgrade resets the advertised state), the same registered credentials
succeed. -/
theorem auth_requires_encryption (cfg : ServerConfig) (s : Session) (id sec : String)
    (hreq : cfg.requireTlsForAuth = true)
    (htls : s.tlsActive = false)
    (hst : s.state = .Greeted) :
    ((handleAuth cfg s id sec).1 = .encryptionRequired ∧
     (handleAuth cfg s id sec).2 = s) ∧
    (∀ creds₂ : List (String × String),
      handleAuth { cfg with credentials := creds₂ } s id sec = handleAuth cfg s id sec) ∧
    (s.txSender = none → lookupSecret cfg.credentials id = some sec →
      (handleStartTls s).1 = .okReply ∧
      (handleAuth cfg (handleGreet (handleStartTls s).2).2 id sec).1 = .okReply ∧
      (handleAuth cfg (handleGreet (handleStartTls s).2).2 id sec).2.authIdentity = some id) := by
  refine ⟨?_, fun creds₂ => ?_, fun htx hl => ?_⟩
  · simp [handleAuth, hst, hreq, htls]
  · simp [handleAuth, hst, hreq, htls]
  · have hup : handleStartTls s = (.okReply, { s with tlsActive := true, state := .Connected }) := by
      simp [handleStartTls, hst, htls, htx]
    have hgr : (handleGreet (handleStartTls s).2).2 =
        { s with tlsActive := true, state := .Greeted } := by
      rw [hup]
      simp [handleGreet]
    refine ⟨by rw [hup], ?_, ?_⟩
    · rw [hgr]
      simp [handleAuth, hl]
    · rw [hgr]
      simp [handleAuth, hl]

/-- Witness for C7 on the secure-port configuration: the correct
credentials are refused with the encryption-required signal on the
plaintext channel, refused identically under an empty credential store,
and accepted right after the STARTTLS upgrade and re-greeting. -/
theorem auth_requires_encryption_witness :
    (handleAuth tlsCfg sess0 "secure@example.com" "securepass").1 = .encryptionRequired ∧
    handleAuth { tlsCfg with credentials := [] } sess0 "secure@example.com" "securepass" =
      handleAuth tlsCfg sess0 "secure@example.com" "securepass" ∧
    (handleAuth tlsCfg (handleGreet (handleStartTls sess0).2).2
      "secure@example.com" "securepass").1 = .okReply := by
  have h := auth_requires_encryption tlsCfg sess0 "secure@example.com" "securepass"
    (by decide) (by decide) (by decide)
  exact ⟨h.1.1, h.2.1 [], (h.2.2 (by decide) (by decide)).2.1⟩

/-- C2: at a successful end of DATA every accepted recipient is
classified local or non-local by domain — with only local recipients
the commit produces exactly one stored message and no relay entry, with
only non-local recipients it stores nothing and appends exactly one
Pending entry per distinct destination domain of the recipients, and
with both kinds it produces the stored copy and at least one queue
entry. -/
theorem commit_routing_classification (cfg : ServerConfig) (s : Session)
    (mc : MailContent) (st : MessageStore) (q : List RelayQueueEntry)
    (hst : s.state = .ReceivingData)
    (hok : contentBlocked cfg.rules mc.subject mc.body = false) :
    ((∀ a ∈ s.txRecipients, isLocal cfg a = true) → s.txRecipients ≠ [] →
      (handleDataEnd cfg s mc st q).store.messages =
        st.messages ++ [committedMessage s mc] ∧
      (handleDataEnd cfg s mc st q).queue = q) ∧
    ((∀ a ∈ s.txRecipients, isLocal cfg a = false) →
      (handleDataEnd cfg s mc st q).store = st ∧
      (handleDataEnd cfg s mc st q).queue =
        q ++ (nonlocalDomains cfg s.txRecipients).map (relayEntry (committedMessage s mc)) ∧
      (nonlocalDomains cfg s.txRecipients).Nodup ∧
      (∀ d, d ∈ nonlocalDomains cfg s.txRecipients ↔
        ∃ a ∈ s.txRecipients, domainOf a = d)) ∧
    ((∃ a ∈ s.txRecipients, isLocal cfg a = true) →
      (∃ a ∈ s.txRecipients, isLocal cfg a = false) →
      (handleDataEnd cfg s mc st q).store.messages =
        st.messages ++ [committedMessage s mc] ∧
      q.length < (handleDataEnd cfg s mc st q).queue.length) := by
  have hne : ¬(s.state ≠ SessionState.ReceivingData) := by simp [hst]
  refine ⟨fun hall hrs => ?_, fun hall => ?_, fun hloc hnl => ?_⟩
  · have hfil : s.txRecipients.filter (fun r => !isLocal cfg r) = [] :=
      List.filter_eq_nil_iff.mpr (fun a ha => by simp [hall a ha])
    have hdom : nonlocalDomains cfg s.txRecipients = [] := by
      simp [nonlocalDomains, hfil]
    obtain ⟨a, ha⟩ := List.exists_mem_of_ne_nil s.txRecipients hrs
    have hany : s.txRecipients.any (fun r => isLocal cfg r) = true :=
      List.any_eq_true.mpr ⟨a, ha, hall a ha⟩
    simp [handleDataEnd, hne, hok, hany, hdom, persist]
  · have hany : s.txRecipients.any (fun r => isLocal cfg r) = false :=
      List.any_eq_false.mpr (fun a ha => by simp [hall a ha])
    have hfil : s.txRecipients.filter (fun r => !isLocal cfg r) = s.txRecipients :=
      List.filter_eq_self.mpr (fun a ha => by simp [hall a ha])
    refine ⟨?_, ?_, List.nodup_dedup _, fun d => ?_⟩
    · simp [handleDataEnd, hne, hok, hany]
    · simp [handleDataEnd, hne, hok, hany]
    · rw [nonlocalDomains, hfil, List.mem_dedup, List.mem_map]
  · obtain ⟨a, ha, hla⟩ := hloc
    obtain ⟨b, hb, hlb⟩ := hnl
    have hany : s.txRecipients.any (fun r => isLocal cfg r) = true :=
      List.any_eq_true.mpr ⟨a, ha, hla⟩
    have hmem : domainOf b ∈ nonlocalDomains cfg s.txRecipients := by
      rw [nonlocalDomains, List.mem_dedup, List.mem_map]
      exact ⟨b, List.mem_filter.mpr ⟨hb, by simp [hlb]⟩, rfl⟩
    have hpos : 0 < (nonlocalDomains cfg s.txRecipients).length :=
      List.length_pos.mpr (List.ne_nil_of_mem hmem)
    constructor
    · simp [handleDataEnd, hne, hok, hany, persist]
    · have hq : (handleDataEnd cfg s mc st q).queue =
          q ++ (nonlocalDomains cfg s.txRecipients).map (relayEntry (committedMessage s mc)) := by
        simp [handleDataEnd, hne, hok, hany]
      rw [hq, List.length_append, List.length_map]
      exact Nat.lt_add_of_pos_right hpos

/-- Witness for C2 on the relay scenarios: a mixed-recipient commit both
stores the message and enqueues a relay entry. -/
theorem commit_routing_classification_witness :
    (handleDataEnd tcCfg sessData mcClean ⟨[]⟩ []).store.messages =
      [committedMessage sessData mcClean] ∧
    0 < (handleDataEnd tcCfg sessData mcClean ⟨[]⟩ []).queue.length := by
  have h := (commit_routing_classification tcCfg sessData mcClean ⟨[]⟩ []
    (by decide) (by decide)).2.2
    ⟨"local@localhost", by decide, by decide⟩
    ⟨"external@gmail.com", by decide, by decide⟩
  exact ⟨h.1, h.2⟩

/-- Helper for the transaction-level claims: a run of RCPT commands that
all pass the recipient policy from a state admitting recipients replies
success to each one, and a non-empty run ends in RcptToSet. -/
theorem runRcpts_all_accepted (cfg : ServerConfig) (rs : List String) :
    ∀ s : Session,
    (s.state = .MailFromSet ∨ s.state = .RcptToSet) →
    (∀ r ∈ rs, recipientPolicy cfg.rules r = true) →
    (∀ rep ∈ (runRcpts cfg s rs).1, rep = Reply.okReply) ∧
    (rs ≠ [] → (runRcpts cfg s rs).2.state = .RcptToSet) := by
  induction rs with
  | nil =>
    intro s hst hok
    exact ⟨by simp [runRcpts], by simp⟩
  | cons r rs ih =>
    intro s hst hok
    have hpol : recipientPolicy cfg.rules r = true := hok r (List.mem_cons_self r rs)
    have hr : handleRcpt cfg s r =
        (Reply.okReply,
          { s with state := .RcptToSet, txRecipients := s.txRecipients ++ [r] }) := by
      unfold handleRcpt
      rw [if_pos hst]
      simp [hpol]
    have hrun : runRcpts cfg s (r :: rs) =
        (Reply.okReply ::
          (runRcpts cfg { s with state := .RcptToSet, txRecipients := s.txRecipients ++ [r] } rs).1,
         (runRcpts cfg { s with state := .RcptToSet, txRecipients := s.txRecipients ++ [r] } rs).2) := by
      simp [runRcpts, hr]
    have ih₂ := ih { s with state := .RcptToSet, txRecipients := s.txRecipients ++ [r] }
      (Or.inr rfl) (fun a ha => hok a (List.mem_cons_of_mem r ha))
    constructor
    · intro rep hrep
      rw [hrun] at hrep
      rcases List.mem_cons.mp hrep with h | h
      · exact h
      · exact ih₂.1 rep h
    · intro _
      rw [hrun]
      by_cases hrs : rs = []
      · subst hrs
        simp [runRcpts]
      · exact ih₂.2 hrs

/-- C3: a message whose subject or body contains a blocked keyword,
submitted through a transaction whose sender and recipients all pass
the per-command protocol-level checks, is rejected only at end of DATA
— every protocol-level step replied success first, so the event-based
filtering ran strictly after protocol-level filtering — and the
rejected message is neither persisted to the Message Store nor enqueued
to the Relay Queue, the session returning to Greeted. -/
theorem content_filter_after_protocol (cfg : ServerConfig) (now : Nat)
    (grl irl : RateLimiter) (s : Session) (sender : String) (rcpts : List String)
    (mc : MailContent) (st : MessageStore) (q : List RelayQueueEntry)
    (hst : s.state = .Greeted)
    (hauth : ¬(cfg.requireAuth = true ∧ s.authIdentity = none))
    (hsp : senderPolicy cfg.rules (domainOf sender) = true)
    (hg : (tryAcquire now "global" grl).1 = true)
    (hi : (tryAcquire now s.remoteAddr irl).1 = true)
    (hr : ∀ r ∈ rcpts, recipientPolicy cfg.rules r = true)
    (hrs : rcpts ≠ [])
    (hblk : contentBlocked cfg.rules mc.subject mc.body = true) :
    (runTransaction cfg now grl irl s sender rcpts mc st q).mailReply = .okReply ∧
    (∀ rep ∈ (runTransaction cfg now grl irl s sender rcpts mc st q).rcptReplies,
      rep = .okReply) ∧
    (runTransaction cfg now grl irl s sender rcpts mc st q).dataBeginReply = .startData ∧
    (runTransaction cfg now grl irl s sender rcpts mc st q).dataEndReply = .rejectedContent ∧
    (runTransaction cfg now grl irl s sender rcpts mc st q).finalStore = st ∧
    (runTransaction cfg now grl irl s sender rcpts mc st q).finalQueue = q ∧
    (runTransaction cfg now grl irl s sender rcpts mc st q).finalSession.state = .Greeted := by
  have hm : handleMailFrom cfg now grl irl s sender =
      ⟨.okReply, mailStarted s sender,
        (tryAcquire now "global" grl).2, (tryAcquire now s.remoteAddr irl).2⟩ := by
    simp [handleMailFrom, hst, hauth, hsp, hg, hi]
  have hms : (mailStarted s sender).state = .MailFromSet := rfl
  have hrc := runRcpts_all_accepted cfg rcpts (mailStarted s sender) (Or.inl hms) hr
  have hs₂ := hrc.2 hrs
  have hdb : handleDataBegin (runRcpts cfg (mailStarted s sender) rcpts).2 =
      (Reply.startData, receivingOf (runRcpts cfg (mailStarted s sender) rcpts).2) := by
    simp [handleDataBegin, hs₂]
  have hde : ∀ t : Session, t.state = .ReceivingData →
      handleDataEnd cfg t mc st q = ⟨.rejectedContent, clearedOf t, st, q⟩ := by
    intro t ht
    have hn : ¬(t.state ≠ SessionState.ReceivingData) := by simp [ht]
    simp [handleDataEnd, hn, hblk]
  have hrun : runTransaction cfg now grl irl s sender rcpts mc st q =
      ⟨Reply.okReply, (runRcpts cfg (mailStarted s sender) rcpts).1,
        Reply.startData, Reply.rejectedContent,
        clearedOf (receivingOf (runRcpts cfg (mailStarted s sender) rcpts).2), st, q⟩ := by
    unfold runTransaction
    rw [hm]
    dsimp only
    rw [hdb]
    dsimp only
    rw [hde _ rfl]
  rw [hrun]
  exact ⟨rfl, fun rep hrep => hrc.1 rep hrep, rfl, rfl, rfl, rfl, rfl⟩

/-- Witness for C3 on the custom-processing configuration: a message with
subject containing a blocked keyword from an acceptable sender to an
acceptable recipient passes every protocol-level step and is rejected
at end of DATA, leaving store and queue untouched and the session back
in Greeted. -/
theorem content_filter_after_protocol_witness :
    (runTransaction tcCfg 0 rl0 rl0 sess0 "sender@example.com" ["admin@example.com"]
      ⟨"Subject: Buy Viagra Now!", "Buy Viagra Now!", "Check out our products"⟩
      ⟨[]⟩ []).mailReply = .okReply ∧
    (runTransaction tcCfg 0 rl0 rl0 sess0 "sender@example.com" ["admin@example.com"]
      ⟨"Subject: Buy Viagra Now!", "Buy Viagra Now!", "Check out our products"⟩
      ⟨[]⟩ []).dataEndReply = .rejectedContent ∧
    (runTransaction tcCfg 0 rl0 rl0 sess0 "sender@example.com" ["admin@example.com"]
      ⟨"Subject: Buy Viagra Now!", "Buy Viagra Now!", "Check out our products"⟩
      ⟨[]⟩ []).finalStore = ⟨[]⟩ ∧
    (runTransaction tcCfg 0 rl0 rl0 sess0 "sender@example.com" ["admin@example.com"]
      ⟨"Subject: Buy Viagra Now!", "Buy Viagra Now!", "Check out our products"⟩
      ⟨[]⟩ []).finalQueue = [] := by
  have h := content_filter_after_protocol tcCfg 0 rl0 rl0 sess0 "sender@example.com"
    ["admin@example.com"]
    ⟨"Subject: Buy Viagra Now!", "Buy Viagra Now!", "Check out our products"⟩
    ⟨[]⟩ []
    (by decide) (by decide) (by decide) (by decide) (by decide)
    (by intro r hrr
        simp only [List.mem_singleton] at hrr
        subst hrr
        decide)
    (by decide) (by decide)
  exact ⟨h.1, h.2.2.2.1, h.2.2.2.2.1, h.2.2.2.2.2.1⟩

end Zetian
